import Mathlib

/-!
Verification of the `convid` command-line tool (src/convid/convid.py)
against its natural-language specification.

The program is a glue script: it validates a source video path, normalizes
the requested extension, derives the target file name with
`os.path.splitext`, delegates the conversion to an external `ffmpeg`
subprocess, optionally removes the source file, and keeps the path of the
ffmpeg executable in a per-user JSON configuration file.

This file shallowly embeds the relevant parts of the script:
strings are Lean `String`s (reasoned about through their `List Char` data),
the CPython library functions the script calls (`str.startswith`,
`os.path.splitext`, `os.path.join`) are translated from their CPython
sources, the filesystem reads are environment parameters, and the
filesystem/subprocess mutations are recorded as an explicit effect trace.
-/

namespace Convid

/-! ### CPython string and path primitives used by the script -/

/-- Python `s.startswith(pre)` (prefix test) on Lean strings. -/
def startswith (s pre : String) : Bool :=
  pre.data.isPrefixOf s.data

/-- Python `str.rfind`: index of the LAST occurrence of the character `c`
in the list, `none` when absent (CPython returns `-1` then; all uses in
`os.path` compare the result against other indices, which the `Option`
translation mirrors faithfully). -/
def rfind (c : Char) : List Char → Option Nat
  | [] => none
  | x :: xs =>
    match rfind c xs with
    | some i => some (i + 1)
    | none => if x = c then some 0 else none

/-- CPython `posixpath.splitext` (via `genericpath._splitext` with
`sep = '/'`, `extsep = '.'`, no altsep), on the character list of a path:

    sepIndex = p.rfind(sep); dotIndex = p.rfind(extsep)
    if dotIndex > sepIndex:
        filenameIndex = sepIndex + 1
        while filenameIndex < dotIndex:
            if p[filenameIndex] != extsep:
                return p[:dotIndex], p[dotIndex:]
            filenameIndex += 1
    return p, ''

`sepSuccOf` below is `sepIndex + 1` (`0` when there is no separator,
matching CPython's `-1 + 1`); the `while` loop tests that every character
strictly between the last separator and the last dot is a dot. -/
def sepSuccOf (p : List Char) : Nat :=
  match rfind '/' p with
  | none => 0
  | some s => s + 1

/-- The branch structure of CPython `_splitext` (see `sepSuccOf`). -/
def splitextL (p : List Char) : List Char × List Char :=
  match rfind '.' p with
  | none => (p, [])
  | some dot =>
    if sepSuccOf p ≤ dot then
      if ((p.drop (sepSuccOf p)).take (dot - sepSuccOf p)).all (fun c => c = '.') then
        (p, [])
      else
        (p.take dot, p.drop dot)
    else
      (p, [])

/-- `os.path.splitext` on strings (POSIX flavour, the one exercised by every
example in the specification). -/
def splitext (p : String) : String × String :=
  (⟨(splitextL p.data).1⟩, ⟨(splitextL p.data).2⟩)

/-- The characters of the path after its last `/` — the region CPython's
`_splitext` scans with its `while` loop (the final path component). -/
def basenameChars (p : String) : List Char :=
  p.data.drop (sepSuccOf p.data)

/-! ### Extension normalization and target-name derivation
(convid.py lines 122-124 and 144) -/

/-- Lines 122-123: `if not ext.startswith("."): ext = f".{ext}"`. -/
def normalizeExt (ext : String) : String :=
  if startswith ext "." then ext else "." ++ ext

/-- Lines 124 and 144: `name, old_ext = os.path.splitext(f)` followed by
`new_file = f"{name}{ext}"` — the target path is the stem of the source
path concatenated with the (already normalized) extension. -/
def deriveTarget (p ext : String) : String :=
  (splitext p).1 ++ ext

/-! ### CPython `os.path.join` (both flavours; `convid.py` only ever calls
it with exactly two arguments, lines 27-28) -/

/-- CPython `posixpath.join(a, b)`:

    path = a
    if b.startswith(sep): path = b
    elif not path or path.endswith(sep): path += b
    else: path += sep + b
-/
def posixJoin (a b : String) : String :=
  if b.data.head? = some '/' then b
  else if a.data = [] ∨ a.data.getLast? = some '/' then ⟨a.data ++ b.data⟩
  else ⟨a.data ++ '/' :: b.data⟩

/-- First index `i ≥ start` with `l[i] = c` (CPython `str.find(c, start)`,
`none` for `-1`). -/
def findFrom (c : Char) (l : List Char) (start : Nat) : Option Nat :=
  match (l.drop start).findIdx? (fun x => x = c) with
  | none => none
  | some i => some (start + i)

/-- CPython `ntpath.splitroot(p)`: splits a Windows path into
`(drive, root, tail)`.  Translated clause by clause; `normp` replaces `/`
by `\`, the first branch handles rooted and UNC paths, the second branch
drive letters. -/
def ntSplitroot (p : List Char) : List Char × List Char × List Char :=
  let normp := p.map (fun c => if c = '/' then '\\' else c)
  if normp.head? = some '\\' then
    if (normp.drop 1).head? = some '\\' then
      -- UNC drives, e.g. \\server\share or \\?\UNC\server\share
      let start : Nat :=
        if (normp.take 8).map Char.toUpper = "\\\\?\\UNC\\".data then 8 else 2
      match findFrom '\\' normp start with
      | none => (p, [], [])
      | some index =>
        match findFrom '\\' normp (index + 1) with
        | none => (p, [], [])
        | some index2 =>
          (p.take index2, (p.drop index2).take 1, p.drop (index2 + 1))
    else
      -- relative path with root, e.g. \Windows
      ([], p.take 1, p.drop 1)
  else if (normp.drop 1).head? = some ':' then
    if (normp.drop 2).head? = some '\\' then
      -- absolute drive-letter path, e.g. X:\Windows
      (p.take 2, (p.drop 2).take 1, p.drop 3)
    else
      -- relative path with drive, e.g. X:Windows
      (p.take 2, [], p.drop 2)
  else
    ([], [], p)

/-- CPython `str.lower` restricted to ASCII (drive letters). -/
def lowerL (l : List Char) : List Char :=
  l.map Char.toLower

/-- `l`'s last character is one of `s` (CPython `x[-1] in s` guarded by
`x` being nonempty). -/
def lastCharIn (l s : List Char) : Bool :=
  match l.getLast? with
  | some c => s.contains c
  | none => false

/-- CPython `ntpath.join(path, b)` for a single extra component — the body
of the `for p in paths` loop followed by the final return:

    result_drive, result_root, result_path = splitroot(path)
    p_drive, p_root, p_path = splitroot(p)
    if p_root:
        if p_drive or not result_drive: result_drive = p_drive
        result_root, result_path = p_root, p_path
    elif p_drive and p_drive != result_drive:
        if p_drive.lower() != result_drive.lower():
            result_drive, result_root, result_path = p_drive, '', p_path
        else:
            result_drive = p_drive
            <append>
    else: <append>
    where <append> is:
        if result_path and result_path[-1] not in seps: result_path += sep
        result_path += p_path
    finally:
        if result_path and not result_root and result_drive and result_drive[-1] not in colon_seps:
            return result_drive + sep + result_path
        return result_drive + result_root + result_path
-/
def ntJoin (a b : String) : String :=
  let r := ntSplitroot a.data
  let q := ntSplitroot b.data
  let seps : List Char := ['\\', '/']
  let colonSeps : List Char := [':', '\\', '/']
  let append : List Char → List Char :=
    fun rp =>
      if rp ≠ [] ∧ lastCharIn rp seps = false then rp ++ '\\' :: q.2.2
      else rp ++ q.2.2
  let res : List Char × List Char × List Char :=
    if q.2.1 ≠ [] then
      (if q.1 ≠ [] ∨ r.1 = [] then q.1 else r.1, q.2.1, q.2.2)
    else if q.1 ≠ [] ∧ q.1 ≠ r.1 then
      if lowerL q.1 ≠ lowerL r.1 then (q.1, [], q.2.2)
      else (q.1, r.2.1, append r.2.2)
    else
      (r.1, r.2.1, append r.2.2)
  if res.2.2 ≠ [] ∧ res.2.1 = [] ∧ res.1 ≠ [] ∧
      lastCharIn res.1 colonSeps = false then
    ⟨res.1 ++ '\\' :: res.2.2⟩
  else
    ⟨res.1 ++ res.2.1 ++ res.2.2⟩

/-! ### Configuration path (convid.py lines 21-29) -/

/-- Lines 21-29 (`get_convid_config_dir_file`): pick the home directory from
`USERPROFILE` (default `C:\Users`) on Windows (`os.name == "nt"`) and from
`HOME` (default `/home`) otherwise, then join `.config` and `convid.json`
with the platform's `os.path.join`. -/
def get_convid_config_dir_file (isWindows : Bool) (userprofile home : Option String) :
    String × String :=
  let home_dir := if isWindows then userprofile.getD "C:\\Users" else home.getD "/home"
  let join := if isWindows then ntJoin else posixJoin
  let convid_config_dir := join home_dir ".config"
  let convid_config_file := join convid_config_dir "convid.json"
  (convid_config_dir, convid_config_file)

/-! ### Configuration store (convid.py lines 32-59)

The two configuration operations (`get_convid_configs` and the `--ffmpeg`
callback `configure_ffmpeg`) address the single file returned by
`get_convid_config_dir_file`, so the filesystem state they touch is one
slot: whether `~/.config` exists, and the content of `~/.config/convid.json`
(`none` = absent, `some none` = present but not parsable as JSON — e.g. the
empty file — and `some (some m)` = present and parsing to the mapping `m`).
A JSON object whose values are the strings this program writes is modelled
as an association list. -/

/-- A JSON object with string values, as written/read by this program. -/
abbrev ConfigMap := List (String × String)

/-- The slice of the filesystem the configuration store touches. -/
structure ConfigFS where
  dirExists : Bool
  file : Option (Option ConfigMap)
  deriving DecidableEq

/-- Python exceptions that the configuration code can raise. -/
inductive PyErr where
  /-- `json.dump(out_conf_file, config)` (line 44): the first argument is
  the object to serialize, and a file handle is not JSON serializable. -/
  | typeError
  /-- `json.load` on a file that is not valid JSON. -/
  | jsonDecodeError
  /-- `open(path, "w")` when the parent directory does not exist. -/
  | fileNotFoundError
  deriving DecidableEq

/-- Filesystem / subprocess mutations and the one interactive prompt,
recorded in program order. -/
inductive Effect where
  /-- `os.mkdir(convid_config_dir)` (line 40). -/
  | mkdirConfig
  /-- the empty file left behind by `open(convid_config_file, "w")`
  (line 43) when `json.dump` then raises before writing. -/
  | createEmptyConfigFile
  /-- `json.dump(config, out_conf_file)` (line 57): the config file now
  holds the mapping. -/
  | writeConfigFile (m : ConfigMap)
  /-- `click.confirm(...)` (line 130): interactive prompt, no filesystem
  mutation. -/
  | promptConfirm
  /-- `ffmpeg.input(f).output(new_file).run(cmd=c, ...)` (line 155):
  subprocess invocation of executable `c` on input `i`, output `o`. -/
  | runFfmpeg (c i o : String)
  /-- `os.remove(f)` (line 186): the file at `p` was deleted. -/
  | removeFile (p : String)
  deriving DecidableEq

/-- Does the effect mutate the filesystem?  Only the interactive
confirmation prompt does not. -/
def Effect.mutatesFs : Effect → Bool
  | .promptConfirm => false
  | _ => true

/-- Lines 32-47 (`get_convid_configs`).  When the file is present,
`json.load` either returns its mapping or raises.  When it is absent
(`FileNotFoundError` from `open`), the handler creates the configuration
directory if missing, opens the file for writing (creating it empty), and
then calls `json.dump(out_conf_file, config)` — with the arguments in the
wrong order, so `json.dump` raises `TypeError` ("TextIOWrapper is not JSON
serializable") before writing anything; the function never reaches its
`return config`.  Returns (result, new state, effect trace). -/
def get_convid_configs (fs : ConfigFS) :
    Except PyErr ConfigMap × ConfigFS × List Effect :=
  match fs.file with
  | some (some m) => (.ok m, fs, [])
  | some none => (.error .jsonDecodeError, fs, [])
  | none =>
    let mkFx : List Effect := if fs.dirExists then [] else [.mkdirConfig]
    (.error .typeError, ⟨true, some none⟩, mkFx ++ [.createEmptyConfigFile])

/-- Lines 50-59 (`configure_ffmpeg`, the eager `--ffmpeg` callback) without
the final `ctx.exit()`: with a falsy value (or during resilient parsing) it
returns without doing anything; otherwise it overwrites the configuration
file with `{"ffmpeg": value}`.  `open(path, "w")` fails when `~/.config`
does not exist — unlike the load path, this function never creates the
directory.  Returns the new state, or the uncaught exception. -/
def configure_ffmpeg (value : String) (fs : ConfigFS) : Except PyErr ConfigFS :=
  if value = "" then .ok fs
  else if fs.dirExists then .ok ⟨true, some (some [("ffmpeg", value)])⟩
  else .error .fileNotFoundError

/-! ### The conversion workflow (convid.py lines 62-195)

The reads the workflow performs (`os.path.abspath`, `os.path.exists`,
`os.path.isfile`, `os.access(..., R_OK)`), the user's answer to the one
possible prompt, the outcome of the delegated ffmpeg run and of
`os.remove`, and the configuration slot are gathered in an environment
record; the workflow itself is then a pure function from the environment
and the CLI arguments to an outcome and an effect trace. -/

/-- Environment of one invocation. -/
structure Env where
  /-- `os.path.abspath` (depends on the current working directory). -/
  abspath : String → String
  /-- `os.path.exists`. -/
  pathExists : String → Bool
  /-- `os.path.isfile`. -/
  isFile : String → Bool
  /-- `os.access(f, os.R_OK)`. -/
  readable : String → Bool
  /-- the configuration slot (see `ConfigFS`). -/
  cfg : ConfigFS
  /-- the user's answer to `click.confirm` (line 130), were it asked. -/
  confirmAnswer : Bool
  /-- whether `ffmpeg.input(i).output(o).run(cmd=c, ...)` succeeds; `false`
  covers both a spawn failure (`AttributeError` branch, line 163) and a
  non-zero tool exit (`Exception` branch, line 172) — both print an error
  and `sys.exit(1)`. -/
  ffmpegRun : String → String → String → Bool
  /-- whether `os.remove` succeeds. -/
  removeOk : String → Bool

/-- How one invocation of the program ends.  Each constructor corresponds
to one of the distinct terminations of `convid.py`. -/
inductive Outcome where
  /-- `sys.exit(0)` (line 195). -/
  | success
  /-- "file does not exist" then `sys.exit(1)` (lines 107-108). -/
  | errNotFound
  /-- "is not a file" then `sys.exit(1)` (lines 112-113). -/
  | errNotAFile
  /-- "is not readable" then `sys.exit(1)` (lines 117-118). -/
  | errNotReadable
  /-- `raise click.Abort()` (line 140): user declined the confirmation;
  click prints "Aborted!" and exits 1. -/
  | userAbort
  /-- either `except` branch of the conversion `try` (lines 163-180):
  error message then `sys.exit(1)`. -/
  | errConversion
  /-- removal failure (lines 188-192): error message then `sys.exit(1)`. -/
  | errRemoval
  /-- `ctx.exit()` from the eager `--ffmpeg` callback (line 59): exit 0
  before the command body ever runs. -/
  | configExit
  /-- an exception escaped the command (uncaught `FileNotFoundError` from
  the `--ffmpeg` callback when `~/.config` is missing): traceback, exit 1. -/
  | crashed
  deriving DecidableEq

/-- The process exit code of each outcome. -/
def exitCode : Outcome → Nat
  | .success => 0
  | .configExit => 0
  | _ => 1

/-- Line 154: `get_convid_configs().get("ffmpeg", "ffmpeg")` — the
configured executable, defaulting to the bare command name. -/
def ffmpegExeOf (m : ConfigMap) : String :=
  (m.lookup "ffmpeg").getD "ffmpeg"

/-- Lines 147-195: the conversion `try` block and the optional removal,
entered with the validated absolute source path `f` and the normalized
extension `ext1`.  `get_convid_configs()` is called inside the `try`, so
any exception it raises lands in the generic `except Exception` branch
(exit 1); on success the executable is `config.get("ffmpeg", "ffmpeg")`.
Removal happens only in the success continuation of the `try`. -/
def afterConfirm (env : Env) (f ext1 : String) (remove : Bool) :
    Outcome × List Effect :=
  let new_file := deriveTarget f ext1
  let cfg := get_convid_configs env.cfg
  match cfg.1 with
  | .error _ => (.errConversion, cfg.2.2)
  | .ok m =>
    let exe := ffmpegExeOf m
    let fx := cfg.2.2 ++ [.runFfmpeg exe f new_file]
    if env.ffmpegRun exe f new_file then
      if remove then
        if env.removeOk f then (.success, fx ++ [.removeFile f])
        else (.errRemoval, fx)
      else (.success, fx)
    else (.errConversion, fx)

/-- Lines 93-195, the body of the `convid` command: absolutize the path,
run the three validation checks (each failing with its own message and
`sys.exit(1)`), normalize the extension, when the normalized extension
equals the current one ask for confirmation and abort if declined, then
convert and optionally remove. -/
def convidBody (env : Env) (video ext : String) (remove : Bool) :
    Outcome × List Effect :=
  let f := env.abspath video
  if env.pathExists f = false then (.errNotFound, [])
  else if env.isFile f = false then (.errNotAFile, [])
  else if env.readable f = false then (.errNotReadable, [])
  else
    let ext1 := normalizeExt ext
    let old_ext := (splitext f).2
    if old_ext = ext1 then
      if env.confirmAnswer then
        let r := afterConfirm env f ext1 remove
        (r.1, .promptConfirm :: r.2)
      else (.userAbort, [.promptConfirm])
    else afterConfirm env f ext1 remove

/-- One full program invocation.  Click processes the eager `--ffmpeg`
option (lines 69-77) before the command body runs: when it carries a value
the callback `configure_ffmpeg` writes the configuration file and calls
`ctx.exit()`, so the body is never reached; when the write raises
(\x7e/.config missing) the exception escapes and the process crashes.
Without the option (or with a falsy value, which the callback ignores) the
body `convidBody` runs. -/
def convidRun (env : Env) (video ext : String) (remove : Bool)
    (ffmpegOpt : Option String) : Outcome × List Effect :=
  match ffmpegOpt with
  | some value =>
    match configure_ffmpeg value env.cfg with
    | .ok _ =>
      if value = "" then convidBody env video ext remove
      else (.configExit, [.writeConfigFile [("ffmpeg", value)]])
    | .error _ => (.crashed, [])
  | none => convidBody env video ext remove

/-! ### Concrete environments used to instantiate the theorems -/

/-- A benign environment: the source resolves to `/a/video.mp4`, exists,
is a readable regular file, the configuration is present, the user would
decline the prompt, and ffmpeg and removal would succeed. -/
def envBase : Env where
  abspath := fun _ => "/a/video.mp4"
  pathExists := fun _ => true
  isFile := fun _ => true
  readable := fun _ => true
  cfg := ⟨true, some (some [("ffmpeg", "/usr/bin/ffmpeg")])⟩
  confirmAnswer := false
  ffmpegRun := fun _ _ _ => true
  removeOk := fun _ => true

/-- `envBase` with a source path that does not exist. -/
def envMissing : Env :=
  { envBase with pathExists := fun _ => false }

/-- `envBase` with a failing external tool and a consenting user. -/
def envToolFails : Env :=
  { envBase with ffmpegRun := fun _ _ _ => false, confirmAnswer := true }

/-- `envBase` without the per-user `.config` directory (and hence without
a configuration file). -/
def envNoCfgDir : Env :=
  { envBase with cfg := ⟨false, none⟩ }

/-! ### Model validation against CPython behaviour -/

example : normalizeExt "mp4" = ".mp4" := by decide

example : normalizeExt ".mp4" = ".mp4" := by decide

example : splitext "/a/b/video.mov" = ("/a/b/video", ".mov") := by decide

example : deriveTarget "/a/b/video.mov" ".mp4" = "/a/b/video.mp4" := by decide

example : splitext "/a/b/archive" = ("/a/b/archive", "") := by decide

example : splitext "/a/.hidden" = ("/a/.hidden", "") := by decide

example : splitext "/a.b/c" = ("/a.b/c", "") := by decide

example : ntJoin "C:\\Users" ".config" = "C:\\Users\\.config" := by decide

example : ntJoin "C:\\Users\\.config" "convid.json" = "C:\\Users\\.config\\convid.json" := by
  decide

example : posixJoin "/home/alice" ".config" = "/home/alice/.config" := by decide

example : posixJoin "" ".config" = ".config" := by decide

example :
    get_convid_config_dir_file false none (some "/home/alice") =
      ("/home/alice/.config", "/home/alice/.config/convid.json") := by decide

example :
    get_convid_config_dir_file true none none =
      ("C:\\Users\\.config", "C:\\Users\\.config\\convid.json") := by decide

/-! ### Helper lemmas -/

lemma mk_append (a b : List Char) : (⟨a⟩ : String) ++ ⟨b⟩ = ⟨a ++ b⟩ := rfl

lemma mk_data (p : String) : (⟨p.data⟩ : String) = p := rfl

lemma startswith_append_self (pre s : String) : startswith (pre ++ s) pre = true := by
  obtain ⟨a⟩ := pre
  obtain ⟨b⟩ := s
  show a.isPrefixOf (a ++ b) = true
  exact List.isPrefixOf_iff_prefix.mpr (List.prefix_append a b)

lemma splitextL_fst_append_snd (l : List Char) :
    (splitextL l).1 ++ (splitextL l).2 = l := by
  unfold splitextL
  cases hd : rfind '.' l with
  | none => simp
  | some dot =>
    dsimp only
    split
    · split
      · simp
      · simp
    · simp

lemma rfind_get (l : List Char) (c : Char) :
    ∀ i : Nat, rfind c l = some i → ∃ hlt : i < l.length, l.get ⟨i, hlt⟩ = c := by
  induction l with
  | nil => intro i h; simp [rfind] at h
  | cons x xs ih =>
    intro i h
    unfold rfind at h
    cases hr : rfind c xs with
    | some j =>
      rw [hr] at h
      simp only [Option.some.injEq] at h
      obtain ⟨hlt, hg⟩ := ih j hr
      subst h
      exact ⟨Nat.succ_lt_succ hlt, by simpa using hg⟩
    | none =>
      rw [hr] at h
      by_cases hx : x = c
      · rw [if_pos hx] at h
        injection h with h
        subst h
        exact ⟨Nat.succ_pos _, hx⟩
      · rw [if_neg hx] at h
        exact absurd h (by simp)

lemma mem_drop_of_get (l : List Char) (c : Char) (i k : Nat) (hk : k ≤ i)
    (hlt : i < l.length) (hg : l.get ⟨i, hlt⟩ = c) : c ∈ l.drop k := by
  induction k generalizing l i with
  | zero =>
    simpa using hg ▸ List.get_mem l i hlt
  | succ k ih =>
    cases l with
    | nil => simp at hlt
    | cons x xs =>
      cases i with
      | zero => omega
      | succ j =>
        have hlt' : j < xs.length := by simpa using hlt
        have hg' : xs.get ⟨j, hlt'⟩ = c := by simpa using hg
        simpa using ih xs j (by omega) hlt' hg'

lemma mem_drop_of_rfind (l : List Char) (c : Char) (i k : Nat)
    (h : rfind c l = some i) (hk : k ≤ i) : c ∈ l.drop k := by
  obtain ⟨hlt, hg⟩ := rfind_get l c i h
  exact mem_drop_of_get l c i k hk hlt hg

lemma splitextL_no_dot (l : List Char) (h : '.' ∉ l.drop (sepSuccOf l)) :
    splitextL l = (l, []) := by
  unfold splitextL
  cases hd : rfind '.' l with
  | none => rfl
  | some dot =>
    dsimp only
    have hnle : ¬ sepSuccOf l ≤ dot :=
      fun hle => h (mem_drop_of_rfind l '.' dot (sepSuccOf l) hd hle)
    rw [if_neg hnle]

lemma append_data (a b : String) : a ++ b = ⟨a.data ++ b.data⟩ := by
  obtain ⟨x⟩ := a
  obtain ⟨y⟩ := b
  rfl

lemma posixJoin_plain (a b : String) (h1 : a.data ≠ [])
    (h2 : a.data.getLast? ≠ some '/') (h3 : b.data.head? ≠ some '/') :
    posixJoin a b = ⟨a.data ++ '/' :: b.data⟩ := by
  unfold posixJoin
  rw [if_neg h3, if_neg (not_or.mpr ⟨h1, h2⟩)]

lemma runFfmpeg_not_mem_cfgFx (fs : ConfigFS) (c i o : String) :
    Effect.runFfmpeg c i o ∉ (get_convid_configs fs).2.2 := by
  obtain ⟨d, f⟩ := fs
  rcases f with _ | _ | m
  · cases d <;> simp [get_convid_configs]
  · simp [get_convid_configs]
  · simp [get_convid_configs]

lemma removeFile_not_mem_cfgFx (fs : ConfigFS) (q : String) :
    Effect.removeFile q ∉ (get_convid_configs fs).2.2 := by
  obtain ⟨d, f⟩ := fs
  rcases f with _ | _ | m
  · cases d <;> simp [get_convid_configs]
  · simp [get_convid_configs]
  · simp [get_convid_configs]

lemma afterConfirm_cases (env : Env) (f e1 : String) (rm : Bool) :
    (∃ e, (get_convid_configs env.cfg).1 = .error e ∧
       afterConfirm env f e1 rm =
         (.errConversion, (get_convid_configs env.cfg).2.2)) ∨
    (∃ m, (get_convid_configs env.cfg).1 = .ok m ∧
       ((env.ffmpegRun (ffmpegExeOf m) f (deriveTarget f e1) = false ∧
           afterConfirm env f e1 rm =
             (.errConversion,
               (get_convid_configs env.cfg).2.2 ++
                 [.runFfmpeg (ffmpegExeOf m) f (deriveTarget f e1)])) ∨
        (env.ffmpegRun (ffmpegExeOf m) f (deriveTarget f e1) = true ∧
           (afterConfirm env f e1 rm =
              (.success,
                (get_convid_configs env.cfg).2.2 ++
                  [.runFfmpeg (ffmpegExeOf m) f (deriveTarget f e1),
                   .removeFile f]) ∨
            afterConfirm env f e1 rm =
              (.success,
                (get_convid_configs env.cfg).2.2 ++
                  [.runFfmpeg (ffmpegExeOf m) f (deriveTarget f e1)]) ∨
            afterConfirm env f e1 rm =
              (.errRemoval,
                (get_convid_configs env.cfg).2.2 ++
                  [.runFfmpeg (ffmpegExeOf m) f (deriveTarget f e1)]))))) := by
  rcases hcfg : (get_convid_configs env.cfg).1 with e | m
  · exact Or.inl ⟨e, rfl, by simp [afterConfirm, hcfg]⟩
  · refine Or.inr ⟨m, rfl, ?_⟩
    by_cases hrun : env.ffmpegRun (ffmpegExeOf m) f (deriveTarget f e1)
    · refine Or.inr ⟨hrun, ?_⟩
      by_cases hrm : rm
      · by_cases hok : env.removeOk f
        · exact Or.inl (by simp [afterConfirm, hcfg, hrun, hrm, hok])
        · exact Or.inr (Or.inr (by simp [afterConfirm, hcfg, hrun, hrm, hok]))
      · exact Or.inr (Or.inl (by simp [afterConfirm, hcfg, hrun, hrm]))
    · exact Or.inl ⟨by simpa using hrun, by simp [afterConfirm, hcfg, hrun]⟩

lemma afterConfirm_no_removal_on_failure (env : Env) (f e1 : String) (rm : Bool) :
    (∀ c i o, Effect.runFfmpeg c i o ∈ (afterConfirm env f e1 rm).2 →
       env.ffmpegRun c i o = false →
       (afterConfirm env f e1 rm).1 = .errConversion ∧
       ∀ q, Effect.removeFile q ∉ (afterConfirm env f e1 rm).2) ∧
    (∀ q, Effect.removeFile q ∈ (afterConfirm env f e1 rm).2 →
       ∃ c i o, Effect.runFfmpeg c i o ∈ (afterConfirm env f e1 rm).2 ∧
         env.ffmpegRun c i o = true) := by
  rcases afterConfirm_cases env f e1 rm with
    ⟨e, hcfg, hac⟩ | ⟨m, hcfg, ⟨hrun, hac⟩ | ⟨hrun, hac | hac | hac⟩⟩
  · rw [hac]
    exact
      ⟨fun c i o hm => absurd hm (runFfmpeg_not_mem_cfgFx env.cfg c i o),
       fun q hm => absurd hm (removeFile_not_mem_cfgFx env.cfg q)⟩
  · rw [hac]
    refine ⟨fun c i o hm hfail => ⟨rfl, fun q hm' => ?_⟩, fun q hm => ?_⟩
    · rcases List.mem_append.mp hm' with h | h
      · exact removeFile_not_mem_cfgFx env.cfg q h
      · simp at h
    · rcases List.mem_append.mp hm with h | h
      · exact absurd h (removeFile_not_mem_cfgFx env.cfg q)
      · simp at h
  · rw [hac]
    refine ⟨fun c i o hm hfail => ?_, fun q hm => ?_⟩
    · exfalso
      rcases List.mem_append.mp hm with h | h
      · exact runFfmpeg_not_mem_cfgFx env.cfg c i o h
      · simp only [List.mem_cons, List.mem_singleton, List.not_mem_nil,
          or_false] at h
        rcases h with h | h
        · obtain ⟨hc, hi, ho⟩ := Effect.runFfmpeg.inj h
          rw [hc, hi, ho] at hfail
          rw [hfail] at hrun
          exact Bool.false_ne_true hrun
        · exact Effect.noConfusion h
    · refine ⟨ffmpegExeOf m, f, deriveTarget f e1, by simp, hrun⟩
  · rw [hac]
    refine ⟨fun c i o hm hfail => ?_, fun q hm => ?_⟩
    · exfalso
      rcases List.mem_append.mp hm with h | h
      · exact runFfmpeg_not_mem_cfgFx env.cfg c i o h
      · simp only [List.mem_singleton] at h
        obtain ⟨hc, hi, ho⟩ := Effect.runFfmpeg.inj h
        rw [hc, hi, ho] at hfail
        rw [hfail] at hrun
        exact Bool.false_ne_true hrun
    · exfalso
      rcases List.mem_append.mp hm with h | h
      · exact removeFile_not_mem_cfgFx env.cfg q h
      · simp at h
  · rw [hac]
    refine ⟨fun c i o hm hfail => ?_, fun q hm => ?_⟩
    · exfalso
      rcases List.mem_append.mp hm with h | h
      · exact runFfmpeg_not_mem_cfgFx env.cfg c i o h
      · simp only [List.mem_singleton] at h
        obtain ⟨hc, hi, ho⟩ := Effect.runFfmpeg.inj h
        rw [hc, hi, ho] at hfail
        rw [hfail] at hrun
        exact Bool.false_ne_true hrun
    · exfalso
      rcases List.mem_append.mp hm with h | h
      · exact removeFile_not_mem_cfgFx env.cfg q h
      · simp at h

lemma convidBody_cases (env : Env) (video ext : String) (remove : Bool) :
    convidBody env video ext remove = (.errNotFound, []) ∨
    convidBody env video ext remove = (.errNotAFile, []) ∨
    convidBody env video ext remove = (.errNotReadable, []) ∨
    convidBody env video ext remove = (.userAbort, [.promptConfirm]) ∨
    convidBody env video ext remove =
      ((afterConfirm env (env.abspath video) (normalizeExt ext) remove).1,
        .promptConfirm ::
          (afterConfirm env (env.abspath video) (normalizeExt ext) remove).2) ∨
    convidBody env video ext remove =
      afterConfirm env (env.abspath video) (normalizeExt ext) remove := by
  by_cases h1 : env.pathExists (env.abspath video) = false
  · exact Or.inl (by simp [convidBody, h1])
  · by_cases h2 : env.isFile (env.abspath video) = false
    · exact Or.inr (Or.inl (by simp [convidBody, h1, h2]))
    · by_cases h3 : env.readable (env.abspath video) = false
      · exact Or.inr (Or.inr (Or.inl (by simp [convidBody, h1, h2, h3])))
      · by_cases h4 : (splitext (env.abspath video)).2 = normalizeExt ext
        · by_cases h5 : env.confirmAnswer
          · exact Or.inr (Or.inr (Or.inr (Or.inr (Or.inl
              (by simp [convidBody, h1, h2, h3, h4, h5])))))
          · exact Or.inr (Or.inr (Or.inr (Or.inl
              (by simp [convidBody, h1, h2, h3, h4, h5]))))
        · exact Or.inr (Or.inr (Or.inr (Or.inr (Or.inr
            (by simp [convidBody, h1, h2, h3, h4])))))

lemma convidRun_none (env : Env) (video ext : String) (remove : Bool) :
    convidRun env video ext remove none = convidBody env video ext remove := rfl

/-! ### Claim theorems -/

/-- Claim C1 (code bug): with the backing file `convid.json` absent, the
load operation does create the configuration directory (when missing) and
does create an empty backing file, but it never returns the empty mapping:
line 44 calls `json.dump(out_conf_file, config)` with the payload and the
file handle swapped, so `json.dump` raises `TypeError` and the function
raises instead of returning `{}`. -/
theorem config_load_absent_file_swapped_dump :
    get_convid_configs ⟨false, none⟩ =
      (.error .typeError, ⟨true, some none⟩,
        [.mkdirConfig, .createEmptyConfigFile]) ∧
    get_convid_configs ⟨true, none⟩ =
      (.error .typeError, ⟨true, some none⟩, [.createEmptyConfigFile]) := by
  constructor <;> rfl

/-- Claim C2: if saving `{"ffmpeg": p}` through `configure_ffmpeg`
completes, a subsequent load returns exactly the mapping
`{"ffmpeg": p}`. -/
theorem config_save_load_roundtrip (p : String) (fs fs' : ConfigFS)
    (hp : p ≠ "") (hw : configure_ffmpeg p fs = .ok fs') :
    (get_convid_configs fs').1 = .ok [("ffmpeg", p)] := by
  unfold configure_ffmpeg at hw
  rw [if_neg hp] at hw
  split at hw
  · injection hw with hw
    subst hw
    rfl
  · exact absurd hw (by simp)

/-- Witness for C2 at `p = "/opt/bin/ffmpeg"` from an existing
configuration directory. -/
theorem config_save_load_roundtrip_witness :
    "/opt/bin/ffmpeg" ≠ "" ∧
    configure_ffmpeg "/opt/bin/ffmpeg" ⟨true, none⟩ =
      .ok ⟨true, some (some [("ffmpeg", "/opt/bin/ffmpeg")])⟩ ∧
    (get_convid_configs
        ⟨true, some (some [("ffmpeg", "/opt/bin/ffmpeg")])⟩).1 =
      .ok [("ffmpeg", "/opt/bin/ffmpeg")] :=
  ⟨by decide, rfl,
    config_save_load_roundtrip "/opt/bin/ffmpeg" ⟨true, none⟩ _
      (by decide) rfl⟩

/-- Claim C6: extension normalization (lines 122-123) is idempotent, and
both `"mp4"` and `".mp4"` normalize to `".mp4"`. -/
theorem normalize_extension_idempotent :
    (∀ s : String, normalizeExt (normalizeExt s) = normalizeExt s) ∧
    normalizeExt "mp4" = ".mp4" ∧ normalizeExt ".mp4" = ".mp4" := by
  refine ⟨fun s => ?_, by decide, by decide⟩
  by_cases h : startswith s "."
  · simp [normalizeExt, h]
  · simp [normalizeExt, h, startswith_append_self]

/-- Claim C7: target-name derivation is the pure function that splits the
source path with `os.path.splitext` into stem and original extension and
concatenates the stem with the normalized extension (the split really is a
split: stem and original extension recompose the path), and
`deriveTarget("/a/b/video.mov", ".mp4") = "/a/b/video.mp4"`. -/
theorem derive_target_splitext_concat :
    (∀ p e : String, deriveTarget p e = (splitext p).1 ++ e) ∧
    (∀ p : String, (splitext p).1 ++ (splitext p).2 = p) ∧
    deriveTarget "/a/b/video.mov" ".mp4" = "/a/b/video.mp4" := by
  refine ⟨fun p e => rfl, fun p => ?_, by decide⟩
  show (⟨(splitextL p.data).1⟩ : String) ++ ⟨(splitextL p.data).2⟩ = p
  rw [mk_append, splitextL_fst_append_snd]

/-- Claim C9: when the final component of the source path contains no
`.`, `os.path.splitext` yields an empty original extension, so the target
is the whole source path with the normalized extension appended. -/
theorem derive_target_no_dot_basename (p e : String)
    (h : '.' ∉ basenameChars p) : deriveTarget p e = p ++ e := by
  have h' : splitextL p.data = (p.data, []) :=
    splitextL_no_dot p.data (by simpa [basenameChars] using h)
  show (⟨(splitextL p.data).1⟩ : String) ++ e = p ++ e
  rw [h']

/-- Witness for C9 at `p = "/a/b/video"`. -/
theorem derive_target_no_dot_basename_witness :
    ('.' ∉ basenameChars "/a/b/video") ∧
    deriveTarget "/a/b/video" ".mp4" = "/a/b/video" ++ ".mp4" :=
  ⟨by decide, derive_target_no_dot_basename "/a/b/video" ".mp4" (by decide)⟩

/-- Claim C10: the configuration path is `<home>/.config/convid.json`, a
function of the platform and the platform's home environment variable
only: on POSIX, `HOME` (falling back to `"/home"`); on Windows,
`USERPROFILE` (falling back to `"C:\Users"`).  The first conjunct gives
the general POSIX form for any home directory (nonempty, not
slash-terminated); the others evaluate the fallbacks and a concrete
`USERPROFILE`. -/
theorem config_file_path_from_home :
    (∀ (u : Option String) (h : String), h.data ≠ [] →
       h.data.getLast? ≠ some '/' →
       get_convid_config_dir_file false u (some h) =
         (h ++ "/.config", h ++ "/.config/convid.json")) ∧
    (∀ u : Option String,
       get_convid_config_dir_file false u none =
         ("/home/.config", "/home/.config/convid.json")) ∧
    get_convid_config_dir_file true none none =
      ("C:\\Users\\.config", "C:\\Users\\.config\\convid.json") ∧
    get_convid_config_dir_file true (some "C:\\Users\\alice") none =
      ("C:\\Users\\alice\\.config",
        "C:\\Users\\alice\\.config\\convid.json") := by
  refine ⟨?_, fun _ => rfl, by decide, by decide⟩
  intro u h h1 h2
  have a1 : (h ++ "/.config").data = h.data ++ ("/.config").data := by
    rw [append_data]
  have j1 : posixJoin h ".config" = h ++ "/.config" := by
    rw [posixJoin_plain h ".config" h1 h2 (by decide), append_data]
  have j2 : posixJoin (h ++ "/.config") "convid.json" =
      h ++ "/.config/convid.json" := by
    rw [posixJoin_plain _ _ (by rw [a1]; simp)
        (by rw [a1, List.getLast?_append_of_ne_nil _ (by decide)]; decide)
        (by decide),
      append_data]
    congr 1
    show h.data ++ ("/.config").data ++ '/' :: ("convid.json").data =
      h.data ++ ("/.config/convid.json").data
    rw [List.append_assoc]
    exact congrArg (fun t => h.data ++ t)
      (by decide :
        (("/.config").data ++ '/' :: ("convid.json").data : List Char) =
          ("/.config/convid.json").data)
  show (posixJoin h ".config",
      posixJoin (posixJoin h ".config") "convid.json") = _
  rw [j1, j2]

/-- Witness for C10 at `HOME = "/home/bob"`. -/
theorem config_file_path_from_home_witness :
    (("/home/bob" : String).data ≠ [] ∧
      ("/home/bob" : String).data.getLast? ≠ some '/') ∧
    get_convid_config_dir_file false none (some "/home/bob") =
      ("/home/bob" ++ "/.config", "/home/bob" ++ "/.config/convid.json") :=
  ⟨⟨by decide, by decide⟩,
    config_file_path_from_home.1 none "/home/bob" (by decide) (by decide)⟩

/-- Claim C3: when the source passes validation and its current extension
equals the normalized target extension, the workflow asks for confirmation
(the only entry in the effect trace is the prompt) and, on decline, ends
with the dedicated `userAbort` outcome (`click.Abort`, distinct from every
error exit): nothing was converted, removed, or otherwise changed. -/
theorem same_extension_decline_aborts (env : Env) (video ext : String)
    (remove : Bool)
    (h1 : env.pathExists (env.abspath video) = true)
    (h2 : env.isFile (env.abspath video) = true)
    (h3 : env.readable (env.abspath video) = true)
    (h4 : (splitext (env.abspath video)).2 = normalizeExt ext)
    (h5 : env.confirmAnswer = false) :
    convidRun env video ext remove none = (.userAbort, [.promptConfirm]) ∧
    (∀ e ∈ (convidRun env video ext remove none).2, e.mutatesFs = false) ∧
    Outcome.userAbort ≠ .errConversion ∧ Outcome.userAbort ≠ .errNotFound := by
  have hb : convidRun env video ext remove none =
      (.userAbort, [.promptConfirm]) := by
    simp [convidRun, convidBody, h1, h2, h3, h4, h5]
  refine ⟨hb, ?_, by decide, by decide⟩
  rw [hb]
  intro e he
  simp only [List.mem_singleton] at he
  subst he
  rfl

/-- Witness for C3: a readable `/a/video.mp4` converted to `"mp4"` with a
declining user. -/
theorem same_extension_decline_aborts_witness :
    (envBase.pathExists (envBase.abspath "video.mp4") = true ∧
      (splitext (envBase.abspath "video.mp4")).2 = normalizeExt "mp4" ∧
      envBase.confirmAnswer = false) ∧
    convidRun envBase "video.mp4" "mp4" true none =
      (.userAbort, [.promptConfirm]) :=
  ⟨⟨by decide, by decide, by decide⟩,
    (same_extension_decline_aborts envBase "video.mp4" "mp4" true
      (by decide) (by decide) (by decide) (by decide) (by decide)).1⟩

/-- Claim C5: a source path that resolves to a non-existent path is
rejected first: the outcome is the not-found diagnosis with exit code 1,
the effect trace is empty, and in particular no subprocess is ever
invoked. -/
theorem missing_source_no_subprocess (env : Env) (video ext : String)
    (remove : Bool) (h : env.pathExists (env.abspath video) = false) :
    convidRun env video ext remove none = (.errNotFound, []) ∧
    exitCode .errNotFound = 1 ∧
    ∀ c i o, Effect.runFfmpeg c i o ∉ (convidRun env video ext remove none).2 := by
  have hb : convidRun env video ext remove none = (.errNotFound, []) := by
    simp [convidRun, convidBody, h]
  refine ⟨hb, rfl, fun c i o hm => ?_⟩
  rw [hb] at hm
  simp at hm

/-- Witness for C5 at a vanished `clip.mov`. -/
theorem missing_source_no_subprocess_witness :
    envMissing.pathExists (envMissing.abspath "clip.mov") = false ∧
    convidRun envMissing "clip.mov" "avi" true none = (.errNotFound, []) :=
  ⟨by decide,
    (missing_source_no_subprocess envMissing "clip.mov" "avi" true
      (by decide)).1⟩

/-- Claim C4: (a) whenever the effect trace records an ffmpeg invocation
that fails, the run ends in the conversion-error outcome with exit code 1
and no file is ever removed — the remove flag included, since the
quantification covers `remove = true`; (b) any recorded removal is
preceded by a successful ffmpeg invocation. -/
theorem failed_conversion_no_removal (env : Env) (video ext : String)
    (remove : Bool) :
    (∀ c i o, Effect.runFfmpeg c i o ∈ (convidRun env video ext remove none).2 →
       env.ffmpegRun c i o = false →
       (convidRun env video ext remove none).1 = .errConversion ∧
       exitCode (convidRun env video ext remove none).1 = 1 ∧
       ∀ q, Effect.removeFile q ∉ (convidRun env video ext remove none).2) ∧
    (∀ q, Effect.removeFile q ∈ (convidRun env video ext remove none).2 →
       ∃ c i o, Effect.runFfmpeg c i o ∈ (convidRun env video ext remove none).2 ∧
         env.ffmpegRun c i o = true) := by
  rw [convidRun_none]
  rcases convidBody_cases env video ext remove with hb | hb | hb | hb | hb | hb
  · rw [hb]
    exact ⟨fun c i o hm => absurd hm (by simp), fun q hm => absurd hm (by simp)⟩
  · rw [hb]
    exact ⟨fun c i o hm => absurd hm (by simp), fun q hm => absurd hm (by simp)⟩
  · rw [hb]
    exact ⟨fun c i o hm => absurd hm (by simp), fun q hm => absurd hm (by simp)⟩
  · rw [hb]
    exact ⟨fun c i o hm => absurd hm (by simp), fun q hm => absurd hm (by simp)⟩
  · rw [hb]
    obtain ⟨ha, hc⟩ :=
      afterConfirm_no_removal_on_failure env (env.abspath video)
        (normalizeExt ext) remove
    refine ⟨fun c i o hm hfail => ?_, fun q hm => ?_⟩
    · have hm' : Effect.runFfmpeg c i o ∈
          (afterConfirm env (env.abspath video) (normalizeExt ext) remove).2 := by
        simpa using hm
      obtain ⟨ho, hnr⟩ := ha c i o hm' hfail
      refine ⟨ho, ?_, fun q => ?_⟩
      · show exitCode
          (afterConfirm env (env.abspath video) (normalizeExt ext) remove).1 = 1
        rw [ho]
        rfl
      · simpa using hnr q
    · have hm' : Effect.removeFile q ∈
          (afterConfirm env (env.abspath video) (normalizeExt ext) remove).2 := by
        simpa using hm
      obtain ⟨c, i, o, hmem, htrue⟩ := hc q hm'
      exact ⟨c, i, o, by simp [hmem], htrue⟩
  · rw [hb]
    obtain ⟨ha, hc⟩ :=
      afterConfirm_no_removal_on_failure env (env.abspath video)
        (normalizeExt ext) remove
    refine ⟨fun c i o hm hfail => ?_, hc⟩
    obtain ⟨ho, hnr⟩ := ha c i o hm hfail
    refine ⟨ho, ?_, hnr⟩
    show exitCode
      (afterConfirm env (env.abspath video) (normalizeExt ext) remove).1 = 1
    rw [ho]
    rfl

/-- Witness for C4: a failing tool on a readable source, with the remove
flag set. -/
theorem failed_conversion_no_removal_witness :
    (Effect.runFfmpeg "/usr/bin/ffmpeg" "/a/video.mp4" "/a/video.avi" ∈
       (convidRun envToolFails "video.mp4" "avi" true none).2 ∧
     envToolFails.ffmpegRun "/usr/bin/ffmpeg" "/a/video.mp4" "/a/video.avi" =
       false) ∧
    ((convidRun envToolFails "video.mp4" "avi" true none).1 = .errConversion ∧
     exitCode (convidRun envToolFails "video.mp4" "avi" true none).1 = 1 ∧
     ∀ q, Effect.removeFile q ∉
       (convidRun envToolFails "video.mp4" "avi" true none).2) :=
  ⟨⟨by decide, by decide⟩,
    (failed_conversion_no_removal envToolFails "video.mp4" "avi" true).1
      "/usr/bin/ffmpeg" "/a/video.mp4" "/a/video.avi" (by decide) (by decide)⟩

/-- Counterexample to C8 as stated: with the per-user `.config` directory
missing, an invocation supplying `--ffmpeg /usr/bin/ffmpeg` does NOT write
the executable path to the configuration file — `configure_ffmpeg` opens
the file for writing without creating the directory, the uncaught
`FileNotFoundError` escapes the eager callback, and the process crashes
(exit code 1) having written nothing. -/
theorem ffmpeg_option_missing_dir_counterexample :
    convidRun envNoCfgDir "video.mov" "mp4" false (some "/usr/bin/ffmpeg") =
      (.crashed, []) ∧
    (∀ m : ConfigMap, Effect.writeConfigFile m ∉
       (convidRun envNoCfgDir "video.mov" "mp4" false
         (some "/usr/bin/ffmpeg")).2) ∧
    exitCode
      (convidRun envNoCfgDir "video.mov" "mp4" false
        (some "/usr/bin/ffmpeg")).1 = 1 := by
  have hb : convidRun envNoCfgDir "video.mov" "mp4" false
      (some "/usr/bin/ffmpeg") = (.crashed, []) := by decide
  refine ⟨hb, fun m hm => ?_, by rw [hb]; rfl⟩
  rw [hb] at hm
  simp at hm

/-- Claim C8 as amended: provided the configuration directory exists, an
invocation supplying `--ffmpeg` with a (nonempty) value writes
`{"ffmpeg": value}` to the configuration file and exits immediately
through the eager callback's `ctx.exit()` (exit code 0), before any of the
validation/conversion/removal logic runs: the only recorded effect is the
configuration write. -/
theorem ffmpeg_option_writes_config_and_exits (env : Env) (video ext : String)
    (remove : Bool) (v : String) (hv : v ≠ "")
    (hdir : env.cfg.dirExists = true) :
    convidRun env video ext remove (some v) =
      (.configExit, [.writeConfigFile [("ffmpeg", v)]]) ∧
    exitCode .configExit = 0 ∧
    (∀ c i o, Effect.runFfmpeg c i o ∉
       (convidRun env video ext remove (some v)).2) ∧
    (∀ q, Effect.removeFile q ∉ (convidRun env video ext remove (some v)).2) := by
  have hb : convidRun env video ext remove (some v) =
      (.configExit, [.writeConfigFile [("ffmpeg", v)]]) := by
    simp [convidRun, configure_ffmpeg, hv, hdir]
  refine ⟨hb, rfl, fun c i o hm => ?_, fun q hm => ?_⟩ <;>
    rw [hb] at hm <;> simp at hm

/-- Witness for the amended C8 at `--ffmpeg /opt/ffmpeg`. -/
theorem ffmpeg_option_writes_config_and_exits_witness :
    ("/opt/ffmpeg" ≠ "" ∧ envBase.cfg.dirExists = true) ∧
    convidRun envBase "x.mov" "mp4" true (some "/opt/ffmpeg") =
      (.configExit, [.writeConfigFile [("ffmpeg", "/opt/ffmpeg")]]) :=
  ⟨⟨by decide, by decide⟩,
    (ffmpeg_option_writes_config_and_exits envBase "x.mov" "mp4" true
      "/opt/ffmpeg" (by decide) (by decide)).1⟩

end Convid
